import Mathlib

/-!
Shallow embedding of the low-stock alert service in `src/task1/index.py`,
together with theorems checking its specification.

Modelling conventions:
* database rows become structures mirroring the SQLAlchemy models, and a
  `DB` value is a read-only snapshot of all tables;
* timestamps are rationals measured in days, so `now - timedelta(days=d)`
  becomes `now - d` and fractional-day instants remain representable;
* Python float arithmetic on rates becomes exact rational arithmetic, and
  `math.floor` becomes `Int.floor`;
* `Model.query.get` becomes a `find?` over the table; relationship
  navigation (`company.warehouses`, `product.sales`, `product.supplier`)
  becomes filtering/lookup by foreign key;
* a `None` dereference that would raise in Python (a dangling foreign key)
  is modelled as an explicit `dataAccessFailure` outcome of the endpoint.
-/

namespace LowStock

/-- A row of the `Company` model: id and name. -/
structure Company where
  id : Int
  name : String
deriving Repr, DecidableEq

/-- A row of the `Warehouse` model: id, name and owning company. -/
structure Warehouse where
  id : Int
  name : String
  company_id : Int
deriving Repr, DecidableEq

/-- A row of the `Supplier` model; `contact_email` is a nullable column. -/
structure Supplier where
  id : Int
  name : String
  contact_email : Option String
deriving Repr, DecidableEq

/-- A row of the `Product` model; `supplier_id` is a nullable foreign key. -/
structure Product where
  id : Int
  name : String
  sku : String
  product_type : String
  supplier_id : Option Int
deriving Repr, DecidableEq

/-- A row of the `Inventory` model: joins one product and one warehouse. -/
structure Inventory where
  id : Int
  product_id : Int
  warehouse_id : Int
  quantity : Int
deriving Repr, DecidableEq

/-- A row of the `Sale` model; `created_at` is the timestamp in days. -/
structure Sale where
  id : Int
  product_id : Int
  quantity : Int
  created_at : ℚ
deriving Repr, DecidableEq

/-- A read-only snapshot of all database tables. -/
structure DB where
  companies : List Company
  warehouses : List Warehouse
  suppliers : List Supplier
  products : List Product
  inventories : List Inventory
  sales : List Sale
deriving Repr, DecidableEq

/-- `Company.query.get(cid)`: the first company row with primary key `cid`. -/
def companyGet (db : DB) (cid : Int) : Option Company :=
  db.companies.find? (fun c => decide (c.id = cid))

/-- `Warehouse` lookup by primary key (the `inv.warehouse` backref). -/
def warehouseGet (db : DB) (wid : Int) : Option Warehouse :=
  db.warehouses.find? (fun w => decide (w.id = wid))

/-- `Supplier` lookup by primary key (the `product.supplier` relationship). -/
def supplierGet (db : DB) (sid : Int) : Option Supplier :=
  db.suppliers.find? (fun s => decide (s.id = sid))

/-- `Product.query.get(pid)`: the first product row with primary key `pid`. -/
def productGet (db : DB) (pid : Int) : Option Product :=
  db.products.find? (fun p => decide (p.id = pid))

/-- The `product.sales` relationship: every sale referencing the product. -/
def salesFor (db : DB) (pid : Int) : List Sale :=
  db.sales.filter (fun s => decide (s.product_id = pid))

/-- The `company.warehouses` relationship. -/
def companyWarehouses (db : DB) (company : Company) : List Warehouse :=
  db.warehouses.filter (fun w => decide (w.company_id = company.id))

/-- The `THRESHOLDS_BY_TYPE` mapping (index.py lines 80-84). -/
def THRESHOLDS_BY_TYPE : List (String × Int) :=
  [("fast-moving", 50), ("normal", 20), ("slow-moving", 5)]

/-- The fallback threshold for unrecognized product types: the literal `10`
in `get_threshold_for_product` (index.py line 95). -/
def DEFAULT_THRESHOLD : Int := 10

/-- Activity-gate window (index.py line 87). -/
def SALES_LOOKBACK_DAYS : Int := 90

/-- Rate-averaging window (index.py line 89). -/
def SALES_AVG_DAYS : Int := 30

/-- The threshold policy on category labels:
`THRESHOLDS_BY_TYPE.get(category, 10)`. -/
def threshold_for (category : String) : Int :=
  (THRESHOLDS_BY_TYPE.lookup category).getD DEFAULT_THRESHOLD

/-- `get_threshold_for_product` (index.py lines 93-95). -/
def get_threshold_for_product (p : Product) : Int :=
  threshold_for p.product_type

/-- Sales with `created_at >= cutoff` — the list comprehension used at
index.py lines 139 and 147. -/
def recentSalesIn (sales : List Sale) (cutoff : ℚ) : List Sale :=
  sales.filter (fun s => decide (cutoff ≤ s.created_at))

/-- SalesAnalyzer activity gate: true iff at least one sale has
`created_at >= now - lookback_days` (index.py lines 139-140). -/
def has_recent_activity (sales : List Sale) (now : ℚ) (lookback_days : Int) : Bool :=
  !(recentSalesIn sales (now - (lookback_days : ℚ))).isEmpty

/-- SalesAnalyzer average daily rate: sum of quantities of sales with
`created_at >= now - window_days`, divided by `window_days`, guarded by
`if window_days > 0 else 0` (index.py lines 147-149). -/
def average_daily_rate (sales : List Sale) (now : ℚ) (window_days : Int) : ℚ :=
  let total : Int := ((recentSalesIn sales (now - (window_days : ℚ))).map
    (fun s => s.quantity)).sum
  if 0 < window_days then (total : ℚ) / (window_days : ℚ) else 0

/-- StockoutEstimator: `None` unless the rate is positive, otherwise
`floor(current_stock / avg_daily_sales)` (index.py lines 155-157). -/
def days_until_stockout (current_stock : Int) (avg : ℚ) : Option Int :=
  if 0 < avg then some ⌊(current_stock : ℚ) / avg⌋ else none

/-- The serialized supplier object of an alert (index.py lines 159-166). -/
structure SupplierInfo where
  id : Int
  name : String
  contact_email : Option String
deriving Repr, DecidableEq

/-- One alert record (index.py lines 168-178). -/
structure AlertRecord where
  product_id : Int
  product_name : String
  sku : String
  warehouse_id : Int
  warehouse_name : String
  current_stock : Int
  threshold : Int
  days_until_stockout : Option Int
  supplier : Option SupplierInfo
deriving Repr, DecidableEq

/-- The endpoint's success payload (index.py lines 180-183). -/
structure Response where
  alerts : List AlertRecord
  total_alerts : Nat
deriving Repr, DecidableEq

/-- Failure outcomes of the endpoint: the 404 branch (index.py line 118),
and a crash on a dangling foreign key (a Python `AttributeError`, surfaced
as a request-fatal data-access failure). -/
inductive AppError where
  | notFound
  | dataAccessFailure
deriving Repr, DecidableEq

instance : DecidableEq (Except AppError Response) := fun x y =>
  match x, y with
  | .error a, .error b =>
    if h : a = b then .isTrue (by rw [h]) else .isFalse (by simp [h])
  | .ok a, .ok b =>
    if h : a = b then .isTrue (by rw [h]) else .isFalse (by simp [h])
  | .error _, .ok _ => .isFalse (by simp)
  | .ok _, .error _ => .isFalse (by simp)

/-- `product.supplier` resolution and serialization: `None` when the
product has no supplier reference or the reference is dangling. -/
def supplierInfoFor (db : DB) (p : Product) : Option SupplierInfo :=
  match p.supplier_id with
  | none => none
  | some sid => (supplierGet db sid).map (fun s => ⟨s.id, s.name, s.contact_email⟩)

/-- Assembly of one alert record for an under-stocked inventory row. -/
def mkAlert (product : Product) (w : Warehouse) (current_stock threshold : Int)
    (avg : ℚ) (sup : Option SupplierInfo) : AlertRecord :=
  { product_id := product.id
    product_name := product.name
    sku := product.sku
    warehouse_id := w.id
    warehouse_name := w.name
    current_stock := current_stock
    threshold := threshold
    days_until_stockout := days_until_stockout current_stock avg
    supplier := sup }

/-- The inner loop over a product's inventory rows (index.py lines
151-178): emit an alert for each row strictly below threshold. A dangling
`inv.warehouse` reference crashes, hence `none`. -/
def processInvs (db : DB) (product : Product) (threshold : Int) (avg : ℚ) :
    List Inventory → Option (List AlertRecord)
  | [] => some []
  | inv :: rest =>
    if inv.quantity < threshold then
      match warehouseGet db inv.warehouse_id with
      | none => none
      | some w =>
        match processInvs db product threshold avg rest with
        | none => none
        | some as =>
          some (mkAlert product w inv.quantity threshold avg
            (supplierInfoFor db product) :: as)
    else processInvs db product threshold avg rest

/-- The body of the product loop (index.py lines 136-178): resolve the
product (crash when dangling), gate on recent activity, compute threshold
and average daily rate, then scan the product's inventory rows. -/
def processProduct (db : DB) (now : ℚ) (pid : Int) (inv_list : List Inventory) :
    Option (List AlertRecord) :=
  match productGet db pid with
  | none => none
  | some product =>
    if has_recent_activity (salesFor db product.id) now SALES_LOOKBACK_DAYS then
      processInvs db product (get_threshold_for_product product)
        (average_daily_rate (salesFor db product.id) now SALES_AVG_DAYS) inv_list
    else some []

/-- The product loop: products in dictionary insertion order, each with its
per-warehouse inventory rows, alert lists concatenated in order. -/
def processProducts (db : DB) (now : ℚ) (invs : List Inventory) :
    List Int → Option (List AlertRecord)
  | [] => some []
  | pid :: rest =>
    match processProduct db now pid (invs.filter (fun i => decide (i.product_id = pid))) with
    | none => none
    | some as =>
      match processProducts db now invs rest with
      | none => none
      | some rest_as => some (as ++ rest_as)

/-- Keys of `prod_inv_map` in insertion order: first occurrences, in order
of appearance (Python dict semantics of the `setdefault` loop). -/
def dedupFirst (l : List Int) : List Int :=
  l.foldl (fun acc a => if a ∈ acc then acc else acc ++ [a]) []

/-- The inventory rows held in the company's warehouses (index.py lines
128-129). -/
def companyInventories (db : DB) (company : Company) : List Inventory :=
  let warehouse_ids := (companyWarehouses db company).map (fun w => w.id)
  db.inventories.filter (fun i => decide (i.warehouse_id ∈ warehouse_ids))

/-- The endpoint `low_stock_alerts` (index.py lines 104-185), with `now`
passed explicitly instead of read from the clock. -/
def low_stock_alerts (db : DB) (company_id : Int) (now : ℚ) :
    Except AppError Response :=
  match companyGet db company_id with
  | none => .error .notFound
  | some company =>
    let inventories := companyInventories db company
    let pids := dedupFirst (inventories.map (fun i => i.product_id))
    match processProducts db now inventories pids with
    | none => .error .dataAccessFailure
    | some alerts => .ok { alerts := alerts, total_alerts := alerts.length }

/-- Scenario A data: one company, one warehouse, one product of type
"normal" with a single sale of quantity 10 five days before `now = 100`,
and one inventory row of quantity 5. -/
def dbA : DB :=
  { companies := [⟨1, "Acme"⟩]
    warehouses := [⟨1, "W1", 1⟩]
    suppliers := []
    products := [⟨1, "Widget", "WID-001", "normal", none⟩]
    inventories := [⟨1, 1, 1, 5⟩]
    sales := [⟨1, 1, 10, 95⟩] }

/-- Scenario C data: the product's only sale is 40 days before `now = 100`
— outside the 30-day averaging window but inside the 90-day lookback
window — and stock is below threshold. -/
def dbC : DB :=
  { companies := [⟨1, "Acme"⟩]
    warehouses := [⟨1, "W1", 1⟩]
    suppliers := []
    products := [⟨1, "Widget", "WID-001", "normal", none⟩]
    inventories := [⟨1, 1, 1, 5⟩]
    sales := [⟨1, 1, 10, 60⟩] }

/-- A snapshot holding one company that owns no warehouses. -/
def dbNoWarehouses : DB :=
  { companies := [⟨2, "Empty Co"⟩]
    warehouses := []
    suppliers := []
    products := []
    inventories := []
    sales := [] }

/-- The empty snapshot: no rows in any table. -/
def dbEmpty : DB :=
  { companies := []
    warehouses := []
    suppliers := []
    products := []
    inventories := []
    sales := [] }

theorem productGet_id {db : DB} {pid : Int} {p : Product}
    (h : productGet db pid = some p) : p.id = pid := by
  unfold productGet at h
  simpa using List.find?_some h

theorem warehouseGet_id {db : DB} {wid : Int} {w : Warehouse}
    (h : warehouseGet db wid = some w) : w.id = wid := by
  unfold warehouseGet at h
  simpa using List.find?_some h

theorem has_recent_activity_iff {sales : List Sale} {now : ℚ} {d : Int} :
    has_recent_activity sales now d = true ↔
      ∃ s ∈ sales, now - (d : ℚ) ≤ s.created_at := by
  rw [has_recent_activity, Bool.not_eq_true', List.isEmpty_eq_false]
  constructor
  · intro h
    obtain ⟨s, hs⟩ := List.exists_mem_of_ne_nil _ h
    obtain ⟨hmem, hle⟩ := List.mem_filter.mp hs
    exact ⟨s, hmem, of_decide_eq_true hle⟩
  · rintro ⟨s, hmem, hle⟩
    exact List.ne_nil_of_mem (List.mem_filter.mpr ⟨hmem, decide_eq_true hle⟩)

theorem average_daily_rate_of_no_qualifying {sales : List Sale} {now : ℚ}
    {w : Int} (h : ∀ s ∈ sales, s.created_at < now - (w : ℚ)) :
    average_daily_rate sales now w = 0 := by
  have hf : recentSalesIn sales (now - (w : ℚ)) = [] :=
    List.filter_eq_nil_iff.mpr (fun s hs => by
      simpa using not_le.mpr (h s hs))
  simp [average_daily_rate, hf]

theorem mem_dedupFirst {x : Int} {l : List Int} : x ∈ dedupFirst l ↔ x ∈ l := by
  have main : ∀ (l acc : List Int),
      x ∈ l.foldl (fun acc a => if a ∈ acc then acc else acc ++ [a]) acc ↔
        x ∈ acc ∨ x ∈ l := by
    intro l
    induction l with
    | nil => intro acc; simp
    | cons a l ih =>
      intro acc
      rw [List.foldl_cons, ih]
      by_cases h : a ∈ acc
      · simp only [if_pos h, List.mem_cons]
        constructor
        · rintro (hx | hx)
          · exact Or.inl hx
          · exact Or.inr (Or.inr hx)
        · rintro (hx | rfl | hx)
          · exact Or.inl hx
          · exact Or.inl h
          · exact Or.inr hx
      · simp only [if_neg h, List.mem_append, List.mem_singleton, List.mem_cons]
        tauto
  rw [dedupFirst, main]
  simp

theorem mem_companyInventories {db : DB} {c : Company} {inv : Inventory} :
    inv ∈ companyInventories db c ↔ inv ∈ db.inventories ∧
      inv.warehouse_id ∈ (companyWarehouses db c).map (fun w => w.id) := by
  simp [companyInventories, List.mem_filter]

theorem companyInventories_warehouse_isSome {db : DB} {c : Company}
    {inv : Inventory} (h : inv ∈ companyInventories db c) :
    (warehouseGet db inv.warehouse_id).isSome := by
  obtain ⟨-, hw⟩ := mem_companyInventories.mp h
  obtain ⟨w, hwmem, hwid⟩ := List.mem_map.mp hw
  have hdb : w ∈ db.warehouses := List.mem_of_mem_filter hwmem
  exact List.find?_isSome.mpr ⟨w, hdb, decide_eq_true hwid⟩

theorem processInvs_isSome (db : DB) (product : Product) (threshold : Int)
    (avg : ℚ) :
    ∀ {invs : List Inventory},
      (∀ inv ∈ invs, (warehouseGet db inv.warehouse_id).isSome) →
      ∃ as, processInvs db product threshold avg invs = some as := by
  intro invs
  induction invs with
  | nil => intro _; exact ⟨[], rfl⟩
  | cons inv rest ih =>
    intro h
    obtain ⟨as, has⟩ := ih (fun i hi => h i (List.mem_cons_of_mem _ hi))
    have hw := h inv (List.mem_cons_self _ _)
    by_cases hq : inv.quantity < threshold
    · obtain ⟨w, hw'⟩ := Option.isSome_iff_exists.mp hw
      refine ⟨mkAlert product w inv.quantity threshold avg
        (supplierInfoFor db product) :: as, ?_⟩
      simp only [processInvs, if_pos hq, hw', has]
    · refine ⟨as, ?_⟩
      simp only [processInvs, if_neg hq, has]

theorem mem_processInvs {db : DB} {product : Product} {threshold : Int}
    {avg : ℚ} :
    ∀ {invs : List Inventory} {as : List AlertRecord},
      processInvs db product threshold avg invs = some as →
      ∀ {a : AlertRecord},
        (a ∈ as ↔ ∃ inv ∈ invs, inv.quantity < threshold ∧
          ∃ w, warehouseGet db inv.warehouse_id = some w ∧
            a = mkAlert product w inv.quantity threshold avg
              (supplierInfoFor db product)) := by
  intro invs
  induction invs with
  | nil =>
    intro as h a
    simp only [processInvs, Option.some_inj] at h
    subst h
    simp
  | cons inv rest ih =>
    intro as h a
    by_cases hq : inv.quantity < threshold
    · simp only [processInvs, if_pos hq] at h
      cases hw : warehouseGet db inv.warehouse_id with
      | none => rw [hw] at h; simp at h
      | some w =>
        rw [hw] at h
        cases hrest : processInvs db product threshold avg rest with
        | none => rw [hrest] at h; simp at h
        | some as' =>
          rw [hrest] at h
          simp only [Option.some_inj] at h
          subst h
          rw [List.mem_cons, ih hrest]
          constructor
          · rintro (rfl | ⟨i, hi, hqi, w', hw', rfl⟩)
            · exact ⟨inv, List.mem_cons_self _ _, hq, w, hw, rfl⟩
            · exact ⟨i, List.mem_cons_of_mem _ hi, hqi, w', hw', rfl⟩
          · rintro ⟨i, hi, hqi, w', hw', rfl⟩
            rcases List.mem_cons.mp hi with rfl | hi'
            · rw [hw] at hw'
              simp only [Option.some_inj] at hw'
              subst hw'
              exact Or.inl rfl
            · exact Or.inr ⟨i, hi', hqi, w', hw', rfl⟩
    · simp only [processInvs, if_neg hq] at h
      rw [ih h]
      constructor
      · rintro ⟨i, hi, hqi, w', hw', rfl⟩
        exact ⟨i, List.mem_cons_of_mem _ hi, hqi, w', hw', rfl⟩
      · rintro ⟨i, hi, hqi, w', hw', rfl⟩
        rcases List.mem_cons.mp hi with rfl | hi'
        · exact absurd hqi hq
        · exact ⟨i, hi', hqi, w', hw', rfl⟩

theorem processProduct_isSome (db : DB) (now : ℚ) (pid : Int)
    (invs : List Inventory) {product : Product}
    (hp : productGet db pid = some product)
    (hw : ∀ inv ∈ invs, (warehouseGet db inv.warehouse_id).isSome) :
    ∃ as, processProduct db now pid invs = some as := by
  by_cases hr : has_recent_activity (salesFor db product.id) now SALES_LOOKBACK_DAYS = true
  · obtain ⟨as, has⟩ := processInvs_isSome db product
      (get_threshold_for_product product)
      (average_daily_rate (salesFor db product.id) now SALES_AVG_DAYS) hw
    refine ⟨as, ?_⟩
    simp only [processProduct, hp, if_pos hr, has]
  · refine ⟨[], ?_⟩
    simp only [processProduct, hp, if_neg hr]

theorem mem_processProduct {db : DB} {now : ℚ} {pid : Int}
    {invs : List Inventory} {product : Product} {as : List AlertRecord}
    (hp : productGet db pid = some product)
    (h : processProduct db now pid invs = some as) {a : AlertRecord} :
    a ∈ as ↔ has_recent_activity (salesFor db pid) now SALES_LOOKBACK_DAYS = true ∧
      ∃ inv ∈ invs, inv.quantity < get_threshold_for_product product ∧
        ∃ w, warehouseGet db inv.warehouse_id = some w ∧
          a = mkAlert product w inv.quantity (get_threshold_for_product product)
            (average_daily_rate (salesFor db pid) now SALES_AVG_DAYS)
            (supplierInfoFor db product) := by
  have hid : product.id = pid := productGet_id hp
  subst hid
  simp only [processProduct, hp] at h
  by_cases hr : has_recent_activity (salesFor db product.id) now SALES_LOOKBACK_DAYS = true
  · rw [if_pos hr] at h
    rw [mem_processInvs h]
    simp [hr]
  · rw [if_neg hr] at h
    simp only [Option.some_inj] at h
    subst h
    simp [hr]

theorem processProducts_isSome (db : DB) (now : ℚ) (invs : List Inventory) :
    ∀ {pids : List Int},
      (∀ pid ∈ pids, (productGet db pid).isSome) →
      (∀ inv ∈ invs, (warehouseGet db inv.warehouse_id).isSome) →
      ∃ As, processProducts db now invs pids = some As := by
  intro pids
  induction pids with
  | nil => intro _ _; exact ⟨[], rfl⟩
  | cons pid rest ih =>
    intro hp hw
    obtain ⟨product, hprod⟩ :=
      Option.isSome_iff_exists.mp (hp pid (List.mem_cons_self _ _))
    obtain ⟨as, has⟩ := processProduct_isSome db now pid
      (invs.filter (fun i => decide (i.product_id = pid))) hprod
      (fun inv hi => hw inv (List.mem_of_mem_filter hi))
    obtain ⟨As, hAs⟩ := ih (fun q hq => hp q (List.mem_cons_of_mem _ hq)) hw
    refine ⟨as ++ As, ?_⟩
    simp only [processProducts, has, hAs]

theorem processProducts_sub {db : DB} {now : ℚ} {invs : List Inventory} :
    ∀ {pids : List Int} {As : List AlertRecord},
      processProducts db now invs pids = some As →
      ∀ {pid : Int}, pid ∈ pids →
        ∃ as, processProduct db now pid
          (invs.filter (fun i => decide (i.product_id = pid))) = some as := by
  intro pids
  induction pids with
  | nil => intro As _ pid hpid; simp at hpid
  | cons q rest ih =>
    intro As h pid hpid
    cases hq : processProduct db now q
        (invs.filter (fun i => decide (i.product_id = q))) with
    | none =>
      simp only [processProducts, hq] at h
      exact Option.noConfusion h
    | some as =>
      cases hrest : processProducts db now invs rest with
      | none =>
        simp only [processProducts, hq, hrest] at h
        exact Option.noConfusion h
      | some As' =>
        rcases List.mem_cons.mp hpid with rfl | hmem
        · exact ⟨as, hq⟩
        · exact ih hrest hmem

theorem mem_processProducts {db : DB} {now : ℚ} {invs : List Inventory} :
    ∀ {pids : List Int} {As : List AlertRecord},
      processProducts db now invs pids = some As →
      ∀ {a : AlertRecord},
        (a ∈ As ↔ ∃ pid ∈ pids, ∃ as,
          processProduct db now pid
            (invs.filter (fun i => decide (i.product_id = pid))) = some as ∧
          a ∈ as) := by
  intro pids
  induction pids with
  | nil =>
    intro As h a
    simp only [processProducts, Option.some_inj] at h
    subst h
    simp
  | cons q rest ih =>
    intro As h a
    cases hq : processProduct db now q
        (invs.filter (fun i => decide (i.product_id = q))) with
    | none =>
      simp only [processProducts, hq] at h
      exact Option.noConfusion h
    | some as =>
      cases hrest : processProducts db now invs rest with
      | none =>
        simp only [processProducts, hq, hrest] at h
        exact Option.noConfusion h
      | some As' =>
        simp only [processProducts, hq, hrest, Option.some_inj] at h
        subst h
        rw [List.mem_append, ih hrest]
        constructor
        · rintro (ha | ⟨pid, hpid, as', has', ha⟩)
          · exact ⟨q, List.mem_cons_self _ _, as, hq, ha⟩
          · exact ⟨pid, List.mem_cons_of_mem _ hpid, as', has', ha⟩
        · rintro ⟨pid, hpid, as', has', ha⟩
          rcases List.mem_cons.mp hpid with rfl | hmem
          · rw [hq] at has'
            simp only [Option.some_inj] at has'
            subst has'
            exact Or.inl ha
          · exact Or.inr ⟨pid, hmem, as', has', ha⟩

theorem low_stock_alerts_ok {db : DB} {cid : Int} {c : Company} (now : ℚ)
    (hc : companyGet db cid = some c)
    (hres : ∀ inv ∈ db.inventories, (productGet db inv.product_id).isSome) :
    ∃ alerts, low_stock_alerts db cid now = .ok ⟨alerts, alerts.length⟩ := by
  have hw : ∀ inv ∈ companyInventories db c, (warehouseGet db inv.warehouse_id).isSome :=
    fun inv hi => companyInventories_warehouse_isSome hi
  have hp : ∀ pid ∈ dedupFirst ((companyInventories db c).map (fun i => i.product_id)),
      (productGet db pid).isSome := by
    intro pid hpid
    rw [mem_dedupFirst] at hpid
    obtain ⟨inv, hi, hid⟩ := List.mem_map.mp hpid
    subst hid
    exact hres inv (mem_companyInventories.mp hi).1
  obtain ⟨As, hAs⟩ := processProducts_isSome db now (companyInventories db c) hp hw
  refine ⟨As, ?_⟩
  simp only [low_stock_alerts, hc, hAs]

theorem mem_low_stock_alerts {db : DB} {cid : Int} {now : ℚ} {c : Company}
    {resp : Response} (hc : companyGet db cid = some c)
    (h : low_stock_alerts db cid now = .ok resp) {a : AlertRecord} :
    a ∈ resp.alerts ↔ ∃ inv ∈ companyInventories db c, ∃ p,
      productGet db inv.product_id = some p ∧
      has_recent_activity (salesFor db inv.product_id) now SALES_LOOKBACK_DAYS = true ∧
      inv.quantity < get_threshold_for_product p ∧
      ∃ w, warehouseGet db inv.warehouse_id = some w ∧
        a = mkAlert p w inv.quantity (get_threshold_for_product p)
          (average_daily_rate (salesFor db inv.product_id) now SALES_AVG_DAYS)
          (supplierInfoFor db p) := by
  simp only [low_stock_alerts, hc] at h
  cases hAs : processProducts db now (companyInventories db c)
      (dedupFirst ((companyInventories db c).map (fun i => i.product_id))) with
  | none => rw [hAs] at h; simp at h
  | some As =>
    rw [hAs] at h
    simp only [Except.ok.injEq] at h
    subst h
    show a ∈ As ↔ _
    rw [mem_processProducts hAs]
    constructor
    · rintro ⟨pid, hpid, as, has, ha⟩
      have hpsome : (productGet db pid).isSome := by
        by_contra hns
        rw [Option.not_isSome_iff_eq_none] at hns
        simp only [processProduct, hns] at has
        exact Option.noConfusion has
      obtain ⟨p, hp⟩ := Option.isSome_iff_exists.mp hpsome
      rw [mem_processProduct hp has] at ha
      obtain ⟨hgate, inv, hinv, hq, w, hw, rfl⟩ := ha
      have hid : inv.product_id = pid :=
        of_decide_eq_true (List.mem_filter.mp hinv).2
      subst hid
      exact ⟨inv, (List.mem_filter.mp hinv).1, p, hp, hgate, hq, w, hw, rfl⟩
    · rintro ⟨inv, hinv, p, hp, hgate, hq, w, hw, rfl⟩
      refine ⟨inv.product_id, ?_, ?_⟩
      · rw [mem_dedupFirst]
        exact List.mem_map.mpr ⟨inv, hinv, rfl⟩
      · obtain ⟨as, has⟩ := processProducts_sub hAs
          (by rw [mem_dedupFirst]; exact List.mem_map.mpr ⟨inv, hinv, rfl⟩)
        refine ⟨as, has, ?_⟩
        rw [mem_processProduct hp has]
        exact ⟨hgate, inv, List.mem_filter.mpr ⟨hinv, decide_eq_true rfl⟩, hq, w, hw, rfl⟩

/-- C1: with the company resolved and every inventory row's product
reference resolvable, the endpoint succeeds and emits an alert for a
(product, warehouse) pair exactly when some inventory row of that pair in
the company's warehouses has a product with at least one sale inside the
lookback window (inclusive boundary) and quantity strictly below the
product's threshold; in particular no recent sale, or quantity at or above
threshold, yields no alert for the pair. -/
theorem alert_emitted_iff_recent_and_below (db : DB) (cid : Int) (now : ℚ)
    (c : Company) (hc : companyGet db cid = some c)
    (hres : ∀ inv ∈ db.inventories, (productGet db inv.product_id).isSome) :
    ∃ resp, low_stock_alerts db cid now = .ok resp ∧
      ∀ pid wid : Int,
        ((∃ a ∈ resp.alerts, a.product_id = pid ∧ a.warehouse_id = wid) ↔
          ∃ inv ∈ companyInventories db c, inv.product_id = pid ∧
            inv.warehouse_id = wid ∧
            has_recent_activity (salesFor db pid) now SALES_LOOKBACK_DAYS = true ∧
            ∃ p, productGet db pid = some p ∧
              inv.quantity < get_threshold_for_product p) := by
  obtain ⟨alerts, hok⟩ := low_stock_alerts_ok now hc hres
  refine ⟨_, hok, ?_⟩
  intro pid wid
  constructor
  · rintro ⟨a, ha, hapid, hawid⟩
    obtain ⟨inv, hinv, p, hp, hgate, hq, w, hw, rfl⟩ :=
      (mem_low_stock_alerts hc hok).mp ha
    simp only [mkAlert] at hapid hawid
    have e1 : inv.product_id = pid := (productGet_id hp).symm.trans hapid
    have e2 : inv.warehouse_id = wid := (warehouseGet_id hw).symm.trans hawid
    subst e1
    subst e2
    exact ⟨inv, hinv, rfl, rfl, hgate, p, hp, hq⟩
  · rintro ⟨inv, hinv, hpid, hwid, hgate, p, hp, hq⟩
    subst hpid
    subst hwid
    obtain ⟨w, hw⟩ := Option.isSome_iff_exists.mp
      (companyInventories_warehouse_isSome hinv)
    refine ⟨mkAlert p w inv.quantity (get_threshold_for_product p)
      (average_daily_rate (salesFor db inv.product_id) now SALES_AVG_DAYS)
      (supplierInfoFor db p), ?_, ?_, ?_⟩
    · exact (mem_low_stock_alerts hc hok).mpr
        ⟨inv, hinv, p, hp, hgate, hq, w, hw, rfl⟩
    · simpa [mkAlert] using productGet_id hp
    · simpa [mkAlert] using warehouseGet_id hw

theorem alert_emitted_iff_recent_and_below_witness :
    ∃ resp, low_stock_alerts dbA 1 100 = .ok resp ∧
      ∀ pid wid : Int,
        ((∃ a ∈ resp.alerts, a.product_id = pid ∧ a.warehouse_id = wid) ↔
          ∃ inv ∈ companyInventories dbA ⟨1, "Acme"⟩, inv.product_id = pid ∧
            inv.warehouse_id = wid ∧
            has_recent_activity (salesFor dbA pid) 100 SALES_LOOKBACK_DAYS = true ∧
            ∃ p, productGet dbA pid = some p ∧
              inv.quantity < get_threshold_for_product p) :=
  alert_emitted_iff_recent_and_below dbA 1 100 ⟨1, "Acme"⟩ (by decide) (by decide)

/-- C2: for nonnegative stock, the stockout estimate is `none` exactly
when the rate is nonpositive; for a positive rate it is
`floor(current_stock / rate)`, which is nonnegative. -/
theorem days_until_stockout_spec (current_stock : Int) (rate : ℚ)
    (hstock : 0 ≤ current_stock) :
    (days_until_stockout current_stock rate = none ↔ rate ≤ 0) ∧
    (0 < rate →
      days_until_stockout current_stock rate =
        some ⌊(current_stock : ℚ) / rate⌋ ∧
      0 ≤ ⌊(current_stock : ℚ) / rate⌋) := by
  constructor
  · by_cases h : 0 < rate
    · rw [days_until_stockout, if_pos h]
      simp [not_le.mpr h]
    · rw [days_until_stockout, if_neg h]
      simp [not_lt.mp h]
  · intro h
    rw [days_until_stockout, if_pos h]
    exact ⟨rfl, Int.floor_nonneg.mpr
      (div_nonneg (by exact_mod_cast hstock) h.le)⟩

theorem days_until_stockout_spec_witness :
    days_until_stockout 5 (1/3) = some 15 ∧ days_until_stockout 5 0 = none := by
  constructor
  · have h := (days_until_stockout_spec 5 (1/3) (by norm_num)).2 (by norm_num)
    rw [h.1]
    norm_num
  · exact (days_until_stockout_spec 5 0 (by norm_num)).1.mpr le_rfl

/-- C3: the average daily rate is exactly 0 when the window is nonpositive
or no sale qualifies, and otherwise equals the qualifying-quantity sum
divided by the (nonzero) window — no division by zero is ever performed. -/
theorem average_daily_rate_spec (sales : List Sale) (now : ℚ)
    (window_days : Int) :
    ((window_days ≤ 0 ∨ recentSalesIn sales (now - (window_days : ℚ)) = []) →
      average_daily_rate sales now window_days = 0) ∧
    (0 < window_days → (window_days : ℚ) ≠ 0 ∧
      average_daily_rate sales now window_days =
        (((((recentSalesIn sales (now - (window_days : ℚ))).map
          (fun s => s.quantity)).sum : Int) : ℚ)) / (window_days : ℚ)) := by
  constructor
  · rintro (hw | hq)
    · simp only [average_daily_rate]
      rw [if_neg (not_lt.mpr hw)]
    · simp [average_daily_rate, hq]
  · intro h
    refine ⟨Int.cast_ne_zero.mpr h.ne', ?_⟩
    simp only [average_daily_rate]
    rw [if_pos h]

theorem average_daily_rate_spec_witness :
    average_daily_rate [⟨1, 1, 10, 95⟩] 100 30 = (10 : ℚ) / 30 ∧
    average_daily_rate [⟨1, 1, 10, 95⟩] 100 0 = 0 := by
  constructor
  · have h := (average_daily_rate_spec [⟨1, 1, 10, 95⟩] 100 30).2 (by norm_num)
    rw [h.2]
    norm_num [recentSalesIn]
  · exact (average_daily_rate_spec [⟨1, 1, 10, 95⟩] 100 0).1 (Or.inl le_rfl)

/-- C4: an unresolvable company id yields the typed NotFound outcome, not
an empty alert list. -/
theorem company_not_found (db : DB) (cid : Int) (now : ℚ)
    (h : companyGet db cid = none) :
    low_stock_alerts db cid now = .error .notFound := by
  simp only [low_stock_alerts, h]

theorem company_not_found_witness :
    low_stock_alerts dbEmpty 1 100 = .error .notFound :=
  company_not_found dbEmpty 1 100 (by decide)

/-- C5: the threshold policy is total — each configured category label maps
to its positive configured threshold, every other label maps to the fixed
default, the default differs from every configured value, and the
per-product lookup agrees with the policy on the product's category. -/
theorem threshold_policy_total :
    (∀ ct ∈ THRESHOLDS_BY_TYPE, threshold_for ct.1 = ct.2 ∧ 0 < ct.2) ∧
    (∀ category : String, (∀ ct ∈ THRESHOLDS_BY_TYPE, category ≠ ct.1) →
      threshold_for category = DEFAULT_THRESHOLD) ∧
    (∀ ct ∈ THRESHOLDS_BY_TYPE, DEFAULT_THRESHOLD ≠ ct.2) ∧
    (∀ p : Product, get_threshold_for_product p = threshold_for p.product_type) := by
  refine ⟨by decide, ?_, by decide, fun p => rfl⟩
  intro category h
  have h1 : category ≠ "fast-moving" :=
    h ("fast-moving", 50) (by simp [THRESHOLDS_BY_TYPE])
  have h2 : category ≠ "normal" :=
    h ("normal", 20) (by simp [THRESHOLDS_BY_TYPE])
  have h3 : category ≠ "slow-moving" :=
    h ("slow-moving", 5) (by simp [THRESHOLDS_BY_TYPE])
  have b1 : (category == "fast-moving") = false := beq_eq_false_iff_ne.mpr h1
  have b2 : (category == "normal") = false := beq_eq_false_iff_ne.mpr h2
  have b3 : (category == "slow-moving") = false := beq_eq_false_iff_ne.mpr h3
  simp [threshold_for, THRESHOLDS_BY_TYPE, List.lookup, b1, b2, b3]

theorem threshold_policy_total_witness :
    threshold_for "unrecognized" = DEFAULT_THRESHOLD ∧ threshold_for "normal" = 20 :=
  ⟨threshold_policy_total.2.1 "unrecognized" (by decide),
    (threshold_policy_total.1 ("normal", 20) (by decide)).1⟩

/-- C6: the endpoint is a pure function of the snapshot, the company id
and `now`: two invocations on the same inputs return the same value —
same records, same order, same total count. -/
theorem compute_alerts_deterministic (db : DB) (cid : Int) (now : ℚ)
    (r₁ r₂ : Except AppError Response)
    (h₁ : low_stock_alerts db cid now = r₁)
    (h₂ : low_stock_alerts db cid now = r₂) : r₁ = r₂ :=
  h₁.symm.trans h₂

theorem compute_alerts_deterministic_witness :
    low_stock_alerts dbA 1 100 = low_stock_alerts dbA 1 100 :=
  compute_alerts_deterministic dbA 1 100 _ _ rfl rfl

/-- C7: a product whose sales all predate the averaging window while at
least one falls inside the lookback window still alerts for each
under-stocked warehouse, with a null stockout estimate (rate 0). -/
theorem alert_null_days_when_only_old_sales (db : DB) (cid : Int) (now : ℚ)
    (c : Company) (hc : companyGet db cid = some c)
    (hres : ∀ inv ∈ db.inventories, (productGet db inv.product_id).isSome)
    (inv : Inventory) (hinv : inv ∈ companyInventories db c)
    (p : Product) (hp : productGet db inv.product_id = some p)
    (hold : ∀ s ∈ salesFor db inv.product_id,
      s.created_at < now - (SALES_AVG_DAYS : ℚ))
    (hrecent : ∃ s ∈ salesFor db inv.product_id,
      now - (SALES_LOOKBACK_DAYS : ℚ) ≤ s.created_at)
    (hbelow : inv.quantity < get_threshold_for_product p) :
    ∃ resp, low_stock_alerts db cid now = .ok resp ∧
      ∃ a ∈ resp.alerts, a.product_id = inv.product_id ∧
        a.warehouse_id = inv.warehouse_id ∧ a.days_until_stockout = none := by
  obtain ⟨alerts, hok⟩ := low_stock_alerts_ok now hc hres
  refine ⟨_, hok, ?_⟩
  have hgate : has_recent_activity (salesFor db inv.product_id) now
      SALES_LOOKBACK_DAYS = true := has_recent_activity_iff.mpr hrecent
  have havg : average_daily_rate (salesFor db inv.product_id) now
      SALES_AVG_DAYS = 0 := average_daily_rate_of_no_qualifying hold
  obtain ⟨w, hw⟩ := Option.isSome_iff_exists.mp
    (companyInventories_warehouse_isSome hinv)
  refine ⟨mkAlert p w inv.quantity (get_threshold_for_product p)
    (average_daily_rate (salesFor db inv.product_id) now SALES_AVG_DAYS)
    (supplierInfoFor db p), ?_, ?_, ?_, ?_⟩
  · exact (mem_low_stock_alerts hc hok).mpr
      ⟨inv, hinv, p, hp, hgate, hbelow, w, hw, rfl⟩
  · simpa [mkAlert] using productGet_id hp
  · simpa [mkAlert] using warehouseGet_id hw
  · simp [mkAlert, havg, days_until_stockout]

theorem alert_null_days_when_only_old_sales_witness :
    ∃ resp, low_stock_alerts dbC 1 100 = .ok resp ∧
      ∃ a ∈ resp.alerts,
        a.product_id = (⟨1, 1, 1, 5⟩ : Inventory).product_id ∧
        a.warehouse_id = (⟨1, 1, 1, 5⟩ : Inventory).warehouse_id ∧
        a.days_until_stockout = none :=
  alert_null_days_when_only_old_sales dbC 1 100 ⟨1, "Acme"⟩ (by decide)
    (by decide) ⟨1, 1, 1, 5⟩ (by decide)
    ⟨1, "Widget", "WID-001", "normal", none⟩ (by decide)
    (by norm_num [salesFor, dbC, SALES_AVG_DAYS])
    (by norm_num [salesFor, dbC, SALES_LOOKBACK_DAYS])
    (by decide)

/-- C8: scenario A end-to-end — one product of category "normal"
(threshold 20), one sale of quantity 10 five days before `now`, stock 5 in
warehouse W1: exactly one alert, for W1, with threshold 20, current stock
5 and stockout estimate floor(5 / (10/30)) = 15. -/
theorem scenario_one_recent_sale_low_stock :
    low_stock_alerts dbA 1 100 =
      .ok ⟨[⟨1, "Widget", "WID-001", 1, "W1", 5, 20, some 15, none⟩], 1⟩ := by
  norm_num [low_stock_alerts, companyGet, companyInventories, companyWarehouses,
    dedupFirst, processProducts, processProduct, productGet, salesFor,
    has_recent_activity, recentSalesIn, average_daily_rate, processInvs,
    warehouseGet, get_threshold_for_product, threshold_for, THRESHOLDS_BY_TYPE,
    mkAlert, days_until_stockout, supplierInfoFor, DEFAULT_THRESHOLD,
    SALES_LOOKBACK_DAYS, SALES_AVG_DAYS, dbA]
  decide

/-- C9: an existing company with no warehouses, or whose warehouses hold
no inventory rows, gets a successful empty response with total 0; and the
returned total always equals the length of the returned alert list. -/
theorem empty_inventory_response_and_count (db : DB) (cid : Int) (now : ℚ) :
    (∀ c, companyGet db cid = some c →
      (companyWarehouses db c = [] ∨ companyInventories db c = []) →
      low_stock_alerts db cid now = .ok ⟨[], 0⟩) ∧
    (∀ resp, low_stock_alerts db cid now = .ok resp →
      resp.total_alerts = resp.alerts.length) := by
  constructor
  · intro c hc hemp
    have hinv : companyInventories db c = [] := by
      rcases hemp with hw | hi
      · simp [companyInventories, hw]
      · exact hi
    simp only [low_stock_alerts, hc, hinv]
    rfl
  · intro resp h
    cases hc : companyGet db cid with
    | none =>
      simp only [low_stock_alerts, hc] at h
      exact Except.noConfusion h
    | some c =>
      simp only [low_stock_alerts, hc] at h
      cases hAs : processProducts db now (companyInventories db c)
          (dedupFirst ((companyInventories db c).map (fun i => i.product_id))) with
      | none =>
        rw [hAs] at h
        exact Except.noConfusion h
      | some As =>
        rw [hAs] at h
        simp only [Except.ok.injEq] at h
        subst h
        rfl

theorem empty_inventory_response_and_count_witness :
    low_stock_alerts dbNoWarehouses 2 100 = .ok ⟨[], 0⟩ :=
  (empty_inventory_response_and_count dbNoWarehouses 2 100).1 ⟨2, "Empty Co"⟩
    (by decide) (Or.inl (by decide))

/-- C10: both sale filters are lower-bounded only, so a sale dated
strictly after `now` passes the activity gate and contributes its
quantity to the averaging sum. -/
theorem future_dated_sales_counted (sales : List Sale) (s : Sale) (now : ℚ)
    (h : now < s.created_at) :
    has_recent_activity (s :: sales) now SALES_LOOKBACK_DAYS = true ∧
    average_daily_rate (s :: sales) now SALES_AVG_DAYS =
      (s.quantity : ℚ) / (SALES_AVG_DAYS : ℚ) +
        average_daily_rate sales now SALES_AVG_DAYS := by
  have hcut90 : now - (SALES_LOOKBACK_DAYS : ℚ) ≤ s.created_at := by
    have h0 : (0 : ℚ) ≤ (SALES_LOOKBACK_DAYS : ℚ) := by
      norm_num [SALES_LOOKBACK_DAYS]
    linarith
  have hcut30 : now - (SALES_AVG_DAYS : ℚ) ≤ s.created_at := by
    have h0 : (0 : ℚ) ≤ (SALES_AVG_DAYS : ℚ) := by
      norm_num [SALES_AVG_DAYS]
    linarith
  constructor
  · exact has_recent_activity_iff.mpr ⟨s, List.mem_cons_self _ _, hcut90⟩
  · have hpos : (0 : Int) < SALES_AVG_DAYS := by norm_num [SALES_AVG_DAYS]
    simp only [average_daily_rate, recentSalesIn]
    rw [List.filter_cons, if_pos (decide_eq_true hcut30)]
    rw [List.map_cons, List.sum_cons, if_pos hpos, if_pos hpos]
    push_cast
    rw [add_div]

theorem future_dated_sales_counted_witness :
    has_recent_activity [⟨1, 1, 7, 200⟩] 100 SALES_LOOKBACK_DAYS = true ∧
    average_daily_rate [⟨1, 1, 7, 200⟩] 100 SALES_AVG_DAYS =
      ((7 : Int) : ℚ) / (SALES_AVG_DAYS : ℚ) +
        average_daily_rate [] 100 SALES_AVG_DAYS :=
  future_dated_sales_counted [] ⟨1, 1, 7, 200⟩ 100 (by norm_num)

end LowStock
